import Mathlib

/-!
Verification development for the code assembly compiler:
a shallow embedding of the control-flow linearizer and code emitter
(codex/compile.py) and of the function tree linker
(codex/develop/compile.py), with theorems about the claims of the
specification.

Strings are modelled as lists of characters so that the text-building
behaviour of the source (concatenation, slicing, joining, replacement)
can be reasoned about directly.
-/

set_option maxRecDepth 20000

abbrev Str := List Char

/-- Models Python `str.replace(old, new)` for a non-empty pattern: scans left
to right, replaces each non-overlapping occurrence, never rescans the
replacement.  The natural-number argument is a fuel bound instantiated with
the input length, which makes the definition structurally recursive. -/
def replaceAllGo (w f : Str) : Nat → Str → Str
  | _, [] => []
  | 0, c :: cs => c :: cs
  | n+1, c :: cs =>
    if w.isPrefixOf (c :: cs) && !w.isEmpty then
      f ++ replaceAllGo w f n (cs.drop (w.length - 1))
    else
      c :: replaceAllGo w f n cs

/-- `replaceAll w f s` is `s.replace(w, f)` in the source. -/
def replaceAll (w f s : Str) : Str :=
  replaceAllGo w f s.length s

/-! ## Graph model

Modelled from the spec: the node/graph classes live in
`codex/chains/gen_branching_graph.py`, which is not part of the sources;
the field set is taken from §3 of the spec ("Node", "Graph") and from the
attribute accesses in `codex/compile.py`. -/

/-- Modelled from the spec: an input parameter of a node
(name, semantic type, optional-flag, description). -/
structure InputParameter where
  param_type : Str
  name : Str
  description : Str := []
  optional : Bool := false
deriving DecidableEq, Repr

/-- Modelled from the spec: an output parameter of a node. -/
structure OutputParameter where
  param_type : Str
  name : Str
  description : Str := []
  optional : Bool := false
deriving DecidableEq, Repr

/-- Modelled from the spec: an else-if clause of a branch node, with its own
condition and successor. -/
structure ElseIf where
  python_condition : Str
  true_next_node_name : Option Str := none
deriving DecidableEq, Repr

/-- Modelled from the spec: node kinds
(`kind ∈ {start, branch, branch-else-if, action, end}`). -/
inductive NodeTypeEnum where
  | start
  | if_
  | elif_
  | action
  | end_
deriving DecidableEq, Repr

/-- Modelled from the spec: one step of a computation graph, with the
successor references used by `codex/compile.py`. -/
structure NodeDef where
  name : Str
  node_type : NodeTypeEnum
  description : Str := []
  input_params : List InputParameter := []
  output_params : List OutputParameter := []
  python_if_condition : Str := []
  next_node_name : Option Str := none
  true_next_node_name : Option Str := none
  false_next_node_name : Option Str := none
  elifs : List ElseIf := []
deriving DecidableEq, Repr

/-- Modelled from the spec: a graph is an ordered collection of nodes. -/
structure NodeGraph where
  nodes : List NodeDef
deriving DecidableEq, Repr

/-- `CodeableNodeTypeEnum` from `codex/compile.py`. -/
inductive CodeableNodeTypeEnum where
  | START
  | IF
  | ELIF
  | ELSE
  | ACTION
  | END
deriving DecidableEq, Repr

/-- The coercion of a graph node type into a renderable statement kind
(pydantic coerces the shared string values). -/
def NodeTypeEnum.toCodeable : NodeTypeEnum → CodeableNodeTypeEnum
  | .start => .START
  | .if_ => .IF
  | .elif_ => .ELIF
  | .action => .ACTION
  | .end_ => .END

/-- `CodeableNode` from `codex/compile.py`. -/
structure CodeableNode where
  indent_level : Int
  node_type : CodeableNodeTypeEnum
  node : Option NodeDef := none
  elseif : Option ElseIf := none
deriving DecidableEq, Repr

/-- `CodeableNode.__str__` from `codex/compile.py`: renders one statement to
a line of code.  The `out[:-2]` slices of the source are `take (length - 2)`
here.  A missing node reference renders from an empty node, a state the
pre-processing never produces. -/
def CodeableNode.render (self : CodeableNode) : Str :=
  let node := self.node.getD { name := [], node_type := .action }
  match self.node_type with
  | .START =>
    let out := "def ".data ++ node.name ++ "(".data
    let out :=
      if node.output_params ≠ [] then
        let out := node.output_params.foldl
          (fun acc param => acc ++ param.name ++ ": ".data ++ param.param_type ++ ", ".data) out
        out.take (out.length - 2)
      else out
    out ++ "):".data
  | .IF => "if ".data ++ node.python_if_condition ++ ":".data
  | .ELIF =>
    let e := self.elseif.getD { python_condition := [] }
    "elif ".data ++ e.python_condition ++ ":".data
  | .ELSE => "else:".data
  | .ACTION =>
    let out : Str := []
    let out :=
      if node.output_params ≠ [] then
        let out := node.output_params.foldl
          (fun acc output_param => acc ++ output_param.name ++ ", ".data) out
        out.take (out.length - 2) ++ " = ".data
      else out
    let out := out ++ node.name ++ "(".data
    let out :=
      if node.input_params ≠ [] then
        let out := node.input_params.foldl
          (fun acc input_param => acc ++ input_param.name ++ ", ".data) out
        out.take (out.length - 2)
      else out
    out ++ ")".data
  | .END =>
    match node.input_params with
    | [] => []
    | [param] => "return ".data ++ param.name
    | params =>
      let out := "return (".data
      let out := params.foldl (fun acc param => acc ++ param.name ++ ", ".data) out
      out.take (out.length - 2) ++ ")".data

/-- `find_common_descendent` from `codex/compile.py`: walks the node-list
suffix after the branch, accumulating each node's `next_node_name`, and
returns the first node whose name was already accumulated (or `""`). -/
def find_common_descendent_go (descendents : List (Option Str)) : List NodeDef → Str
  | [] => []
  | subnode :: rest =>
    if some subnode.name ∈ descendents then subnode.name
    else find_common_descendent_go (descendents ++ [subnode.next_node_name]) rest

/-- `find_common_descendent(nodes, node, i)` applied to `nodes[i+1:]`. -/
def find_common_descendent (rest : List NodeDef) : Str :=
  find_common_descendent_go [] rest

/-- The loop of `process_if_paths` from `codex/compile.py`: one pass over the
whole node list, chasing `next_node_name` chains, collecting the arm's
statements at the given indent and the names to skip. -/
def process_if_paths_go (commonon_descendent : Str) (indent_level : Int) :
    Option Str → List NodeDef → List Str × List CodeableNode
  | _, [] => ([], [])
  | next_node, subnode :: rest =>
    if subnode.name ≠ commonon_descendent ∧ some subnode.name = next_node then
      let (sk, cs) := process_if_paths_go commonon_descendent indent_level
        subnode.next_node_name rest
      (subnode.name :: sk,
        { indent_level := indent_level, node_type := subnode.node_type.toCodeable,
          node := some subnode } :: cs)
    else process_if_paths_go commonon_descendent indent_level next_node rest

/-- `process_if_paths` from `codex/compile.py`. -/
def process_if_paths (node_graph : NodeGraph) (next_node_name : Option Str)
    (commonon_descendent : Str) (indent_level : Int) : List Str × List CodeableNode :=
  process_if_paths_go commonon_descendent indent_level next_node_name node_graph.nodes

/-- The `for elifs in node.elifs` block of `pre_process_nodes`. -/
def process_elifs (node_graph : NodeGraph) (commonon_descendent : Str)
    (indent_level : Int) (elifs : List ElseIf) : List Str × List CodeableNode :=
  elifs.foldl
    (fun acc elifs_ =>
      let (s, c) := process_if_paths node_graph elifs_.true_next_node_name
        commonon_descendent (indent_level + 1)
      (acc.1 ++ s,
        acc.2 ++ ({ indent_level := indent_level, node_type := .ELIF,
                    elseif := some elifs_ } :: c)))
    ([], [])

/-- The main loop of `pre_process_nodes` from `codex/compile.py`. -/
def pre_process_go (node_graph : NodeGraph) (skip_node : List Str)
    (indent_level : Int) : List NodeDef → List CodeableNode
  | [] => []
  | node :: rest =>
    if node.name ∈ skip_node then pre_process_go node_graph skip_node indent_level rest
    else
      match node.node_type with
      | .start =>
        { indent_level := indent_level, node_type := .START, node := some node } ::
          pre_process_go node_graph skip_node (indent_level + 1) rest
      | .if_ =>
        let commonon_descendent := find_common_descendent rest
        let (skip1, code1) := process_if_paths node_graph node.true_next_node_name
          commonon_descendent (indent_level + 1)
        let (skipE, codeE) := process_elifs node_graph commonon_descendent
          indent_level node.elifs
        let (skip2, code2) :=
          if node.false_next_node_name ≠ some commonon_descendent then
            let (s, c) := process_if_paths node_graph node.false_next_node_name
              commonon_descendent (indent_level + 1)
            (s, { indent_level := indent_level, node_type := .ELSE,
                  node := some node } :: c)
          else ([], [])
        ({ indent_level := indent_level, node_type := .IF, node := some node } :: code1)
          ++ codeE ++ code2
          ++ pre_process_go node_graph (skip_node ++ skip1 ++ skipE ++ skip2)
              indent_level rest
      | .action =>
        { indent_level := indent_level, node_type := .ACTION, node := some node } ::
          pre_process_go node_graph skip_node indent_level rest
      | .end_ =>
        { indent_level := indent_level, node_type := .END, node := some node } ::
          pre_process_go node_graph skip_node (indent_level - 1) rest
      | .elif_ => pre_process_go node_graph skip_node indent_level rest

/-- `pre_process_nodes` from `codex/compile.py`. -/
def pre_process_nodes (node_graph : NodeGraph) : List CodeableNode :=
  pre_process_go node_graph [] 0 node_graph.nodes

/-- Python string repetition `s * n` (negative counts give the empty
string). -/
def strTimes (s : Str) : Nat → Str
  | 0 => []
  | n+1 => s ++ strTimes s n

/-- `graph_to_code` from `codex/compile.py`: renders each statement with
four spaces of indentation per level; the rendered `start` line has every
occurrence of the start node's name replaced by the exported function
name. -/
def graph_to_code (codeable_nodes : List CodeableNode) (function_name : Str) : Str :=
  let indent_str := "    ".data
  codeable_nodes.foldl
    (fun code node =>
      if node.node_type = .START then
        let node_code := node.render
        let node_code := replaceAll ((node.node.getD
          { name := [], node_type := .start }).name) function_name node_code
        code ++ strTimes indent_str node.indent_level.toNat ++ node_code ++ ['\n']
      else
        code ++ strTimes indent_str node.indent_level.toNat ++ node.render ++ ['\n'])
    []

/-- `convert_graph_to_code` from `codex/compile.py`. -/
def convert_graph_to_code (node_graph : NodeGraph) (function_name : Str) : Str :=
  graph_to_code (pre_process_nodes node_graph) function_name

/-! ## Dependency manifest (`generate_requirements_txt` in `codex/compile.py`) -/

/-- Modelled from the spec: a required third-party package
(name + optional version + optional specifier); the class itself lives in
`codex/db_model.py`, which is not part of the sources. -/
structure RequiredPackage where
  package_name : Str
  version : Option Str := none
  specifier : Option Str := none
deriving DecidableEq, Repr

/-- Python truthiness of an optional string (`None` and `""` are falsy). -/
def truthyS : Option Str → Bool
  | none => false
  | some s => !s.isEmpty

/-- The requirement line built for one package from one
(version, specifier) pair, following the `if version and specifier` /
`elif version` / `else` cases of the source. -/
def requirementFor (package : Str) (vs : Option Str × Option Str) : Str :=
  let (version, specifier) := vs
  if truthyS version && truthyS specifier then
    package ++ specifier.getD [] ++ version.getD []
  else if truthyS version then
    package ++ "==".data ++ version.getD []
  else package

/-- One `resolved_packages[package.package_name].append(...)` step: a Python
dict preserves insertion order, appending to an existing key's list or
adding a new key at the end. -/
def addPkg : List (Str × List (Option Str × Option Str)) → Str →
    Option Str × Option Str → List (Str × List (Option Str × Option Str))
  | [], n, pr => [(n, [pr])]
  | (m, l) :: rest, n, pr =>
    if m = n then (m, l ++ [pr]) :: rest
    else (m, l) :: addPkg rest n pr

/-- The aggregation loop of `generate_requirements_txt`. -/
def resolved_packages (packages : List RequiredPackage) :
    List (Str × List (Option Str × Option Str)) :=
  packages.foldl (fun acc package =>
    addPkg acc package.package_name (package.version, package.specifier)) []

/-- `generate_requirements_txt` from `codex/compile.py`: for each package
name, in first-appearance order, render a requirement from the first
(version, specifier) pair encountered, and join the lines with newlines. -/
def generate_requirements_txt (packages : List RequiredPackage) : Str :=
  List.intercalate "\n".data
    ((resolved_packages packages).map
      (fun g => requirementFor g.1 (g.2.headD (none, none))))

/-- The claim's reading of manifest resolution: keep, in order, only the
first package seen for each name ("the first-seen version/specifier pair is
the one retained"). -/
def first_seen_packages (seen : List Str) : List RequiredPackage → List RequiredPackage
  | [] => []
  | p :: rest =>
    if p.package_name ∈ seen then first_seen_packages seen rest
    else p :: first_seen_packages (p.package_name :: seen) rest

/-! ## Bundle packaging (`create_fastapi_server` in `codex/compile.py`) -/

/-- Modelled from the spec: the per-route compiled artifact consumed by the
service assembler; the class itself lives in `codex/db_model.py`, which is
not part of the sources. -/
structure FunctionData where
  function_name : Str
  code : Str
  requirements_txt : Str
  endpoint_name : Str
deriving DecidableEq, Repr

/-- Python `str.splitlines` restricted to newline separators: splits at
each newline and keeps a final segment only if it is non-empty. -/
def splitlinesGo (cur : Str) : Str → List Str
  | [] => if cur.isEmpty then [] else [cur]
  | c :: rest =>
    if c = '\n' then cur :: splitlinesGo [] rest
    else splitlinesGo (cur ++ [c]) rest

/-- Python `str.splitlines` (newline separators only). -/
def splitlines (s : Str) : List Str :=
  splitlinesGo [] s

/-- First-occurrence deduplication, used to enumerate the distinct elements
of a Python set in a canonical order. -/
def dedupFirst (seen : List Str) : List Str → List Str
  | [] => []
  | x :: rest =>
    if x ∈ seen then dedupFirst seen rest
    else x :: dedupFirst (x :: seen) rest

/-- The `combined_requirements` set of `create_fastapi_server`: the three
seeded entries plus every line of every route's `requirements_txt`.  A
Python `set` has no defined order, so the set is represented by the list of
its distinct elements; any enumeration the runtime chooses is a permutation
of this list. -/
def combined_requirements (functions_data : List FunctionData) : List Str :=
  dedupFirst []
    (["fastapi\n".data, "uvicorn\n".data, "pydantic\n".data]
      ++ functions_data.flatMap (fun fd => splitlines fd.requirements_txt))

/-- The bytes `create_fastapi_server` writes to `requirements.txt`:
`"\n".join(combined_requirements)` evaluated on whichever enumeration order
the runtime's set iteration produces. -/
def requirements_file_bytes (enumeration : List Str) : Str :=
  List.intercalate "\n".data enumeration

/-! ## Function tree linker (`codex/develop/compile.py`)

Modelled from the spec where noted: the prisma model classes
(`Function`, `ObjectType`, `ObjectField`, `Package`) come from the
database schema, which is not part of the sources; their field sets are
taken from §3 of the spec and from the attribute accesses in
`codex/develop/compile.py`.  The target-language syntax checker
(`ast.parse`) is an external library and is abstracted as a predicate on
the composed text.  General recursion is expressed with a fuel bound. -/

mutual
/-- Modelled from the spec: a named structured type
(name, description, ordered fields). -/
inductive ObjectType where
  | mk (name : Str) (description : Str) (Fields : Option (List ObjectField))

/-- Modelled from the spec: one field of a structured type, or an
argument/return descriptor of a function (name, rendered type name,
description, optional reference to a structured type). -/
inductive ObjectField where
  | mk (name : Str) (typeName : Str) (description : Str)
       (typeId : Option Str) (typeObj : Option ObjectType)
end

def ObjectType.name : ObjectType → Str
  | .mk n _ _ => n

def ObjectType.description : ObjectType → Str
  | .mk _ d _ => d

def ObjectType.Fields : ObjectType → Option (List ObjectField)
  | .mk _ _ f => f

def ObjectField.name : ObjectField → Str
  | .mk n _ _ _ _ => n

def ObjectField.typeName : ObjectField → Str
  | .mk _ t _ _ _ => t

def ObjectField.description : ObjectField → Str
  | .mk _ _ d _ _ => d

def ObjectField.typeId : ObjectField → Option Str
  | .mk _ _ _ t _ => t

def ObjectField.typeObj : ObjectField → Option ObjectType
  | .mk _ _ _ _ t => t

/-- Modelled from the spec: a function fragment — body text, imports,
required packages (by id), argument/return descriptors, and an optional
ordered list of child fragments (`None` marks a leaf). -/
inductive Func where
  | mk (id : Str) (functionCode : Option Str) (importStatements : List Str)
       (FunctionArgs : Option (List ObjectField)) (FunctionReturn : Option ObjectField)
       (Packages : List Str) (ChildFunction : Option (List Func))

/-- The errors the linker raises: missing leaf/composite body
(`ValueError: ... code is required`), post-composition parse failure
(`ValueError: Syntax error in function code: ..., {code}` — the payload is
the text the message interpolates), a type with no fields, a field whose
type reference is absent, and fuel exhaustion of the embedding. -/
inductive CErr where
  | missingCode (id : Str)
  | parseFailure (text : Str)
  | noFields (name : Str)
  | typeNone
  | fuelOut
deriving DecidableEq, Repr

/-- `CompiledFunction` from `codex/develop/compile.py` (packages are
represented by their ids). -/
structure CompiledFunction where
  packages : List Str
  imports : List Str
  code : Str
  pydantic_models : List Str
deriving DecidableEq, Repr

/-- The accumulator of the child loop in `recursive_compile_route`
(`packages`, `imports`, `pydantic_models`, `code`). -/
structure Acc4 where
  packages : List Str
  imports : List Str
  pydantic_models : List Str
  code : Str
deriving DecidableEq, Repr

mutual
/-- `process_object_field` from `codex/develop/compile.py`: returns the
generated classes text together with the final state of the seen-set the
source mutates in place.  A primitive field or an already-seen type id
yields `""` and leaves the set unchanged. -/
def process_object_field : Nat → ObjectField → List Str → Except CErr (Str × List Str)
  | 0, _, _ => .error .fuelOut
  | fuel+1, field, object_type_ids =>
    match field.typeId with
    | none => .ok ([], object_type_ids)
    | some tid =>
      if tid ∈ object_type_ids then .ok ([], object_type_ids)
      else
        match field.typeObj with
        | none => .error .typeNone
        | some t => process_object_type fuel t (object_type_ids ++ [tid])

/-- `process_object_type` from `codex/develop/compile.py`: renders the
pydantic class for a type, preceded by the classes of its nested field
types. -/
def process_object_type : Nat → ObjectType → List Str → Except CErr (Str × List Str)
  | 0, _, _ => .error .fuelOut
  | fuel+1, obj, object_type_ids =>
    match obj.Fields with
    | none => .error (.noFields obj.name)
    | some objFields =>
      match process_type_fields fuel objFields ([], [], object_type_ids) with
      | .error e => .error e
      | .ok (sub_types, field_strings, ids) =>
        let fields := List.intercalate "\n".data field_strings
        let template := List.intercalate "\n\n".data sub_types
          ++ "\n\nclass ".data ++ obj.name
          ++ "(BaseModel):\n    \"\"\"\n    ".data ++ obj.description
          ++ "\n    \"\"\"\n".data ++ fields ++ "\n    ".data
        .ok (template, ids)

/-- The `for field in obj.Fields` loop of `process_object_type`: collects
`sub_types` (for fields with a type reference) and `field_strings`,
threading the seen-set. -/
def process_type_fields : Nat → List ObjectField →
    List Str × List Str × List Str → Except CErr (List Str × List Str × List Str)
  | 0, _, _ => .error .fuelOut
  | _+1, [], acc => .ok acc
  | fuel+1, field :: rest, (sub_types, field_strings, ids) =>
    let fieldLine := "    ".data ++ field.name ++ ": ".data ++ field.typeName
      ++ "  # ".data ++ field.description
    match field.typeId with
    | some _ =>
      match process_object_field fuel field ids with
      | .error e => .error e
      | .ok (cls, ids') =>
        process_type_fields fuel rest
          (sub_types ++ [cls], field_strings ++ [fieldLine], ids')
    | none =>
      process_type_fields fuel rest (sub_types, field_strings ++ [fieldLine], ids)
end

/-- The `for arg in function.FunctionArgs` loop of
`recursive_compile_route`: appends each argument's generated classes text
(empty strings included) while threading `new_object_types`. -/
def args_fold (fuel : Nat) : List ObjectField → List Str × List Str →
    Except CErr (List Str × List Str)
  | [], acc => .ok acc
  | arg :: rest, (models, ids) =>
    match process_object_field fuel arg ids with
    | .error e => .error e
    | .ok (cls, ids') => args_fold fuel rest (models ++ [cls], ids')

/-- Lines 99–108 of `recursive_compile_route`: build `pydantic_models` from
the function's arguments and return descriptor with a fresh
`new_object_types` set. -/
def route_models (fuel : Nat) (args : Option (List ObjectField))
    (ret : Option ObjectField) : Except CErr (List Str) :=
  match (match args with
         | none => Except.ok ([], [])
         | some l => args_fold fuel l ([], [])) with
  | .error e => .error e
  | .ok (pydantic_models, new_object_types) =>
    match ret with
    | none => .ok pydantic_models
    | some r =>
      match process_object_field fuel r new_object_types with
      | .error e => .error e
      | .ok (cls, _) => .ok (pydantic_models ++ [cls])

mutual
/-- `recursive_compile_route` from `codex/develop/compile.py`,
parameterised by the external syntax checker `parses`.  A leaf
(`ChildFunction is None`) requires a body, parses `imports + body` and
returns the body as its code; a composite concatenates its children's
linked code in declaration order, appends its own body, parses the full
text and, on failure, raises carrying only `code` (without the
merged import lines).  The `object_type_ids` default parameter of the
source is dead and omitted. -/
def recursive_compile_route (fuel : Nat) (parses : Str → Bool) (function : Func) :
    Except CErr CompiledFunction :=
  match fuel, function with
  | 0, _ => .error .fuelOut
  | n+1, .mk id functionCode importStatements args ret pkgs children =>
    match route_models n args ret with
    | .error e => .error e
    | .ok pydantic_models =>
      match children with
      | none =>
        let packages := pkgs
        match functionCode with
        | none => .error (.missingCode id)
        | some fc =>
          let code := List.intercalate "\n".data importStatements
            ++ "\n\n".data ++ fc
          if parses code then
            .ok ⟨packages, importStatements, fc, pydantic_models⟩
          else .error (.parseFailure code)
      | some kids =>
        match compile_children n parses kids ⟨[], [], [], []⟩ with
        | .error e => .error e
        | .ok acc =>
          let packages := acc.packages ++ pkgs
          let imports := acc.imports ++ importStatements
          match functionCode with
          | none => .error (.missingCode id)
          | some fc =>
            let code := acc.code ++ "\n\n".data ++ fc
            let check_code := List.intercalate "\n".data imports
              ++ "\n\n".data ++ code
            if parses check_code then
              .ok ⟨packages, imports, code, acc.pydantic_models⟩
            else .error (.parseFailure code)

/-- The `for child_function in function.ChildFunction` loop of
`recursive_compile_route`: extends packages, imports and pydantic models
and appends `"\n\n" + child.code` in declaration order. -/
def compile_children (fuel : Nat) (parses : Str → Bool) (kids : List Func)
    (acc : Acc4) : Except CErr Acc4 :=
  match fuel, kids with
  | _, [] => .ok acc
  | 0, _ :: _ => .error .fuelOut
  | n+1, child :: rest =>
    match recursive_compile_route n parses child with
    | .error e => .error e
    | .ok cf =>
      compile_children n parses rest
        ⟨acc.packages ++ cf.packages, acc.imports ++ cf.imports,
         acc.pydantic_models ++ cf.pydantic_models,
         acc.code ++ "\n\n".data ++ cf.code⟩
end

/-! ## Concrete inputs used by the theorems -/

/-- Start node `s` of the example graphs. -/
def ndS : NodeDef :=
  { name := "s".data
    node_type := .start
    output_params := [{ param_type := "int".data, name := "x".data }]
    next_node_name := some "a".data }

/-- Branch node `a`: true arm starts at `t1`, false arm at `f1`. -/
def ndA : NodeDef :=
  { name := "a".data
    node_type := .if_
    python_if_condition := "x > 0".data
    true_next_node_name := some "t1".data
    false_next_node_name := some "f1".data }

/-- True-arm action `t1`, successor `e1`. -/
def ndT1 : NodeDef :=
  { name := "t1".data
    node_type := .action
    next_node_name := some "e1".data }

/-- False-arm action `f1`, successor `e2`. -/
def ndF1 : NodeDef :=
  { name := "f1".data
    node_type := .action
    next_node_name := some "e2".data }

/-- End node `e1`, private terminal of the true arm. -/
def ndE1 : NodeDef :=
  { name := "e1".data
    node_type := .end_
    input_params := [{ param_type := "int".data, name := "x".data }] }

/-- End node `e2`, private terminal of the false arm. -/
def ndE2 : NodeDef :=
  { name := "e2".data
    node_type := .end_
    input_params := [{ param_type := "int".data, name := "x".data }] }

/-- A well-formed graph with one branch whose arms terminate at distinct
end nodes, in one authoring order. -/
def graphOrder1 : NodeGraph := ⟨[ndS, ndA, ndT1, ndE1, ndF1, ndE2]⟩

/-- The same graph with the node list permuted (the two arms swapped in
authoring order). -/
def graphOrder2 : NodeGraph := ⟨[ndS, ndA, ndF1, ndE2, ndT1, ndE1]⟩

/-- Outer branch `A` of the nested-branch graph: true arm starts at the
inner branch `B`, false arm at `F`. -/
def ndOuterA : NodeDef :=
  { name := "A".data
    node_type := .if_
    python_if_condition := "c1".data
    true_next_node_name := some "B".data
    false_next_node_name := some "F".data }

/-- Inner branch `B`, nested inside `A`'s true arm. -/
def ndInnerB : NodeDef :=
  { name := "B".data
    node_type := .if_
    python_if_condition := "c2".data
    true_next_node_name := some "T".data
    false_next_node_name := some "U".data }

/-- Inner true-arm action `T`, successor `Mi` (the inner merge). -/
def ndInT : NodeDef :=
  { name := "T".data
    node_type := .action
    next_node_name := some "Mi".data }

/-- Inner false-arm action `U`, successor `Mi`. -/
def ndInU : NodeDef :=
  { name := "U".data
    node_type := .action
    next_node_name := some "Mi".data }

/-- Inner merge `Mi`, successor the outer merge `M`. -/
def ndInMi : NodeDef :=
  { name := "Mi".data
    node_type := .action
    next_node_name := some "M".data }

/-- Outer false-arm action `F`, successor the outer merge `M`. -/
def ndOutF : NodeDef :=
  { name := "F".data
    node_type := .action
    next_node_name := some "M".data }

/-- Outer merge `M`, successor the end node. -/
def ndOutM : NodeDef :=
  { name := "M".data
    node_type := .action
    next_node_name := some "e".data }

/-- End node of the nested-branch graph. -/
def ndEndE : NodeDef :=
  { name := "e".data
    node_type := .end_
    input_params := [{ param_type := "int".data, name := "y".data }] }

/-- Start node of the nested-branch graph. -/
def ndStartS : NodeDef :=
  { name := "st".data
    node_type := .start
    output_params := [{ param_type := "int".data, name := "x".data }]
    next_node_name := some "A".data }

/-- A graph with a branch (`B`) nested inside the true arm of another
branch (`A`), in natural authoring order. -/
def nestedGraph : NodeGraph :=
  ⟨[ndStartS, ndOuterA, ndInnerB, ndInT, ndInU, ndInMi, ndOutF, ndOutM, ndEndE]⟩

/-- A node that is its own successor: a graph with no start node and a
cyclic successor chain. -/
def ndLoopA : NodeDef :=
  { name := "A".data
    node_type := .action
    next_node_name := some "A".data }

/-- A graph with no start node and a cyclic successor chain. -/
def cyclicGraph : NodeGraph := ⟨[ndLoopA]⟩

/-- First start node of the two-start graph. -/
def ndS1 : NodeDef := { name := "s1".data, node_type := .start }

/-- Second start node of the two-start graph. -/
def ndS2 : NodeDef := { name := "s2".data, node_type := .start }

/-- End node of the two-start graph. -/
def ndSE : NodeDef := { name := "e".data, node_type := .end_ }

/-- A graph with two start nodes. -/
def twoStartGraph : NodeGraph := ⟨[ndS1, ndS2, ndSE]⟩

/-- A syntax checker that accepts everything. -/
def acceptAll : Str → Bool := fun _ => true

/-- A syntax checker that rejects exactly the texts containing `'@'`
(standing in for `ast.parse` on inputs whose only syntax error is an `@`
fragment). -/
def rejectAt : Str → Bool := fun s => !(s.contains '@')

/-- The shared structured type `T` of the duplicate-declaration example:
one primitive field. -/
def objT : ObjectType :=
  .mk "T".data "a shared type".data
    (some [.mk "x".data "int".data "a field".data none none])

/-- An argument descriptor referencing `T` (type id `tid`). -/
def argT : ObjectField :=
  .mk "a".data "T".data "an arg".data (some "tid".data) (some objT)

/-- Leaf child `c1`, taking an argument of type `T`. -/
def leafC1 : Func :=
  .mk "c1".data (some "x = 1".data) [] (some [argT]) none [] none

/-- Leaf child `c2`, also taking an argument of type `T`. -/
def leafC2 : Func :=
  .mk "c2".data (some "y = 2".data) [] (some [argT]) none [] none

/-- A composite route root whose two leaf children both reference the
structured type `T`. -/
def sharedTypeRoot : Func :=
  .mk "r".data (some "c1()".data) [] none none [] (some [leafC1, leafC2])

/-- The pydantic models of the compiled shared-type route (empty on
error). -/
def sharedTypeModels : List Str :=
  match recursive_compile_route 20 acceptAll sharedTypeRoot with
  | .ok cf => cf.pydantic_models
  | .error _ => []

/-- A leaf fragment whose body parses, used as the child of the failing
composite. -/
def leafOk : Func :=
  .mk "c".data (some "x = 1".data) ["import os".data] none none [] none

/-- A composite whose own body text (`@@`) makes the composed text fail to
parse. -/
def badComposite : Func :=
  .mk "r".data (some "@@".data) ["import re".data] none none [] (some [leafOk])

/-- A leaf fragment with an unparsable body. -/
def badLeaf : Func :=
  .mk "L".data (some "@".data) ["import os".data] none none [] none

/-- A leaf fragment whose body text is the empty string. -/
def emptyLeaf : Func :=
  .mk "e".data (some []) ["import os".data] none none [] none

/-- First child of the ordering example: `fetch`. -/
def leafFetch : Func :=
  .mk "fetch".data (some "def fetch(url):\n    return url".data)
    ["import requests".data] none none ["p-requests".data] none

/-- Second child of the ordering example: `parse`. -/
def leafParse : Func :=
  .mk "parse".data (some "def parse(b):\n    return b".data)
    [] none none ["p-bs4".data] none

/-- A composite root calling `fetch` then `parse`. -/
def orderRoot : Func :=
  .mk "root".data (some "parse(fetch(u))".data) [] none none []
    (some [leafFetch, leafParse])

/-- The route list used by the packaging determinism theorem: a single
route requiring `numpy==1.0`. -/
def c7data : List FunctionData :=
  [{ function_name := "f".data
     code := "pass".data
     requirements_txt := "numpy==1.0".data
     endpoint_name := "ep".data }]

deriving instance DecidableEq for Except

/-! ## Helper lemmas -/

theorem isPrefixOf_append_self : ∀ (l₁ l₂ : Str), l₁.isPrefixOf (l₁ ++ l₂) = true := by
  intro l₁
  induction l₁ with
  | nil => intro l₂; simp [List.isPrefixOf]
  | cons a as ih => intro l₂; simp only [List.cons_append, List.isPrefixOf,
      beq_self_eq_true, Bool.true_and]; exact ih l₂

theorem replaceAllGo_cons_pos (w f : Str) (n : Nat) (c : Char) (cs : Str)
    (h : (w.isPrefixOf (c :: cs) && !w.isEmpty) = true) :
    replaceAllGo w f (n+1) (c :: cs) = f ++ replaceAllGo w f n (cs.drop (w.length - 1)) := by
  simp [replaceAllGo, h]

theorem replaceAllGo_cons_neg (w f : Str) (n : Nat) (c : Char) (cs : Str)
    (h : (w.isPrefixOf (c :: cs) && !w.isEmpty) = false) :
    replaceAllGo w f (n+1) (c :: cs) = c :: replaceAllGo w f n cs := by
  simp [replaceAllGo, h]

theorem replaceAllGo_congr (w f : Str) :
    ∀ (n m : Nat) (s : Str), s.length ≤ n → s.length ≤ m →
      replaceAllGo w f n s = replaceAllGo w f m s := by
  intro n
  induction n with
  | zero =>
    intro m s hn _
    have hs : s = [] := List.eq_nil_of_length_eq_zero (Nat.le_zero.mp hn)
    subst hs
    cases m <;> rfl
  | succ n ih =>
    intro m s hn hm
    cases s with
    | nil => cases m <;> rfl
    | cons c cs =>
      cases m with
      | zero => simp at hm
      | succ m =>
        by_cases h : (w.isPrefixOf (c :: cs) && !w.isEmpty) = true
        · rw [replaceAllGo_cons_pos w f n c cs h, replaceAllGo_cons_pos w f m c cs h]
          congr 1
          apply ih
          · have h1 := List.length_drop (w.length - 1) cs
            simp only [List.length_cons] at hn
            omega
          · have h1 := List.length_drop (w.length - 1) cs
            simp only [List.length_cons] at hm
            omega
        · rw [replaceAllGo_cons_neg w f n c cs (Bool.not_eq_true _ ▸ eq_false_of_ne_true h),
            replaceAllGo_cons_neg w f m c cs (eq_false_of_ne_true h)]
          congr 1
          apply ih
          · simp only [List.length_cons] at hn; omega
          · simp only [List.length_cons] at hm; omega

theorem replaceAll_skip (a : Char) (w' f : Str) :
    ∀ (xs ys : Str), a ∉ xs →
      replaceAll (a :: w') f (xs ++ ys) = xs ++ replaceAll (a :: w') f ys := by
  intro xs
  induction xs with
  | nil => intro ys _; rfl
  | cons x xs ih =>
    intro ys hx
    have hax : a ≠ x := fun h => hx (h ▸ List.mem_cons_self x xs)
    have h0 : (a == x) = false := beq_eq_false_iff_ne.mpr hax
    have hpre : ((a :: w').isPrefixOf (x :: (xs ++ ys)) && !(a :: w').isEmpty) = false := by
      simp [List.isPrefixOf, h0]
    calc replaceAll (a :: w') f ((x :: xs) ++ ys)
        = replaceAllGo (a :: w') f ((xs ++ ys).length + 1) (x :: (xs ++ ys)) := rfl
      _ = x :: replaceAllGo (a :: w') f ((xs ++ ys).length) (xs ++ ys) :=
          replaceAllGo_cons_neg _ _ _ _ _ hpre
      _ = x :: (xs ++ replaceAll (a :: w') f ys) := by
          rw [show replaceAllGo (a :: w') f ((xs ++ ys).length) (xs ++ ys)
            = replaceAll (a :: w') f (xs ++ ys) from rfl,
            ih ys (fun h => hx (List.mem_cons_of_mem x h))]
      _ = (x :: xs) ++ replaceAll (a :: w') f ys := rfl

theorem replaceAll_match (a : Char) (w' f : Str) (ys : Str) :
    replaceAll (a :: w') f ((a :: w') ++ ys) = f ++ replaceAll (a :: w') f ys := by
  have hpre : ((a :: w').isPrefixOf (a :: (w' ++ ys)) && !(a :: w').isEmpty) = true := by
    have h1 := isPrefixOf_append_self (a :: w') ys
    simp only [List.cons_append] at h1
    simp [h1]
  calc replaceAll (a :: w') f ((a :: w') ++ ys)
      = replaceAllGo (a :: w') f ((w' ++ ys).length + 1) (a :: (w' ++ ys)) := rfl
    _ = f ++ replaceAllGo (a :: w') f ((w' ++ ys).length)
          ((w' ++ ys).drop ((a :: w').length - 1)) :=
        replaceAllGo_cons_pos _ _ _ _ _ hpre
    _ = f ++ replaceAll (a :: w') f ys := by
        congr 1
        rw [show (a :: w').length - 1 = w'.length from rfl, List.drop_left w' ys]
        apply replaceAllGo_congr
        · simp
        · omega

theorem take_sub_two (l : Str) :
    (l ++ ", ".data).take ((l ++ ", ".data).length - 2) = l := by
  have h : (l ++ ", ".data).length - 2 = l.length := by simp
  rw [h]
  exact List.take_left l ", ".data

theorem compile_children_codes (parses : Str → Bool) :
    ∀ (kids : List Func) (fuel : Nat) (acc accOut : Acc4),
      compile_children fuel parses kids acc = .ok accOut →
      ∃ codes : List Str,
        List.Forall₂ (fun k c => ∃ m cfk,
          recursive_compile_route m parses k = .ok cfk ∧ cfk.code = c) kids codes
        ∧ accOut.code = codes.foldl (fun a c => a ++ "\n\n".data ++ c) acc.code := by
  intro kids
  induction kids with
  | nil =>
    intro fuel acc accOut h
    refine ⟨[], .nil, ?_⟩
    have hacc : acc = accOut := by
      cases fuel <;> simpa [compile_children] using h
    rw [← hacc]
    rfl
  | cons k rest ih =>
    intro fuel acc accOut h
    cases fuel with
    | zero => simp [compile_children] at h
    | succ n =>
      simp only [compile_children] at h
      cases hr : recursive_compile_route n parses k with
      | error e => rw [hr] at h; simp at h
      | ok cf =>
        rw [hr] at h
        simp only at h
        obtain ⟨codes, hf, hc⟩ := ih n _ accOut h
        exact ⟨cf.code :: codes, .cons ⟨n, cf, hr, rfl⟩ hf, hc⟩

theorem headD_append {α : Type} (l l₂ : List α) (d : α) (h : l ≠ []) :
    (l ++ l₂).headD d = l.headD d := by
  cases l with
  | nil => exact absurd rfl h
  | cons x xs => rfl

/-- The (name, first pair) view of a group, as `generate_requirements_txt`
reads it. -/
def groupHead (g : Str × List (Option Str × Option Str)) :
    Str × (Option Str × Option Str) :=
  (g.1, g.2.headD (none, none))

theorem addPkg_fst :
    ∀ (gs : List (Str × List (Option Str × Option Str))) (n : Str)
      (pr : Option Str × Option Str),
      (addPkg gs n pr).map Prod.fst
        = if n ∈ gs.map Prod.fst then gs.map Prod.fst else gs.map Prod.fst ++ [n] := by
  intro gs
  induction gs with
  | nil => intro n pr; simp [addPkg]
  | cons g gs ih =>
    intro n pr
    obtain ⟨m, l⟩ := g
    by_cases hmn : m = n
    · subst hmn
      simp [addPkg]
    · by_cases hmem : n ∈ gs.map Prod.fst
      · simp [addPkg, hmn, ih, hmem, Ne.symm hmn]
      · simp [addPkg, hmn, ih, hmem, Ne.symm hmn]

theorem addPkg_heads :
    ∀ (gs : List (Str × List (Option Str × Option Str))) (n : Str)
      (pr : Option Str × Option Str),
      (∀ g ∈ gs, g.2 ≠ []) →
      (addPkg gs n pr).map groupHead
        = if n ∈ gs.map Prod.fst
          then gs.map groupHead
          else gs.map groupHead ++ [(n, pr)] := by
  intro gs
  induction gs with
  | nil => intro n pr _; simp [addPkg, groupHead]
  | cons g0 gs ih =>
    intro n pr hne
    obtain ⟨m, l⟩ := g0
    have hl : l ≠ [] := hne (m, l) (List.mem_cons_self _ _)
    have hgs : ∀ g ∈ gs, g.2 ≠ [] := fun g hg => hne g (List.mem_cons_of_mem _ hg)
    by_cases hmn : m = n
    · subst hmn
      have h1 : addPkg ((m, l) :: gs) m pr = (m, l ++ [pr]) :: gs := by
        simp [addPkg]
      have h2 : groupHead (m, l ++ [pr]) = groupHead (m, l) := by
        simp only [groupHead]
        rw [headD_append l [pr] (none, none) hl]
      have h3 : m ∈ ((m, l) :: gs).map Prod.fst := by simp
      rw [h1, if_pos h3, List.map_cons, h2, List.map_cons]
    · have h1 : addPkg ((m, l) :: gs) n pr = (m, l) :: addPkg gs n pr := by
        simp [addPkg, hmn]
      have h3 : (n ∈ ((m, l) :: gs).map Prod.fst) ↔ (n ∈ gs.map Prod.fst) := by
        simp [Ne.symm hmn]
      rw [h1, List.map_cons, ih n pr hgs]
      by_cases hmem : n ∈ gs.map Prod.fst
      · rw [if_pos hmem, if_pos (h3.mpr hmem), List.map_cons]
      · rw [if_neg hmem, if_neg (fun hc => hmem (h3.mp hc)), List.map_cons]
        simp

theorem addPkg_nonempty :
    ∀ (gs : List (Str × List (Option Str × Option Str))) (n : Str)
      (pr : Option Str × Option Str),
      (∀ g ∈ gs, g.2 ≠ []) → ∀ g ∈ addPkg gs n pr, g.2 ≠ [] := by
  intro gs
  induction gs with
  | nil =>
    intro n pr _ g hg
    simp [addPkg] at hg
    subst hg
    simp
  | cons g0 gs ih =>
    intro n pr hne g hg
    obtain ⟨m, l⟩ := g0
    have hl : l ≠ [] := hne (m, l) (List.mem_cons_self _ _)
    have hgs : ∀ g ∈ gs, g.2 ≠ [] := fun g hg => hne g (List.mem_cons_of_mem _ hg)
    by_cases hmn : m = n
    · subst hmn
      have h1 : addPkg ((m, l) :: gs) m pr = (m, l ++ [pr]) :: gs := by simp [addPkg]
      rw [h1, List.mem_cons] at hg
      rcases hg with hg | hg
      · subst hg; simp
      · exact hgs g hg
    · have h1 : addPkg ((m, l) :: gs) n pr = (m, l) :: addPkg gs n pr := by
        simp [addPkg, hmn]
      rw [h1, List.mem_cons] at hg
      rcases hg with hg | hg
      · subst hg; exact hl
      · exact ih n pr hgs g hg

theorem resolved_heads :
    ∀ (ps : List RequiredPackage) (gs : List (Str × List (Option Str × Option Str)))
      (seen : List Str),
      (∀ x, x ∈ seen ↔ x ∈ gs.map Prod.fst) →
      (∀ g ∈ gs, g.2 ≠ []) →
      (ps.foldl (fun acc package =>
          addPkg acc package.package_name (package.version, package.specifier)) gs).map
            groupHead
        = gs.map groupHead
          ++ (first_seen_packages seen ps).map
              (fun p => (p.package_name, (p.version, p.specifier))) := by
  intro ps
  induction ps with
  | nil => intro gs seen _ _; simp [first_seen_packages]
  | cons p rest ih =>
    intro gs seen hiff hne
    simp only [List.foldl_cons]
    by_cases hmem : p.package_name ∈ gs.map Prod.fst
    · have hseen : p.package_name ∈ seen := (hiff _).mpr hmem
      have hfst := addPkg_fst gs p.package_name (p.version, p.specifier)
      rw [if_pos hmem] at hfst
      have hiff2 : ∀ x, x ∈ seen ↔
          x ∈ (addPkg gs p.package_name (p.version, p.specifier)).map Prod.fst := by
        intro x; rw [hfst]; exact hiff x
      have hne2 := addPkg_nonempty gs p.package_name (p.version, p.specifier) hne
      rw [ih _ seen hiff2 hne2]
      have hheads := addPkg_heads gs p.package_name (p.version, p.specifier) hne
      rw [if_pos hmem] at hheads
      rw [hheads]
      simp [first_seen_packages, hseen]
    · have hseen : p.package_name ∉ seen := fun hc => hmem ((hiff _).mp hc)
      have hfst := addPkg_fst gs p.package_name (p.version, p.specifier)
      rw [if_neg hmem] at hfst
      have hiff2 : ∀ x, x ∈ (p.package_name :: seen) ↔
          x ∈ (addPkg gs p.package_name (p.version, p.specifier)).map Prod.fst := by
        intro x
        rw [hfst]
        simp only [List.mem_cons, List.mem_append, List.mem_singleton, hiff x]
        tauto
      have hne2 := addPkg_nonempty gs p.package_name (p.version, p.specifier) hne
      rw [ih _ (p.package_name :: seen) hiff2 hne2]
      have hheads := addPkg_heads gs p.package_name (p.version, p.specifier) hne
      rw [if_neg hmem] at hheads
      rw [hheads]
      simp [first_seen_packages, hseen, List.append_assoc]

/-! ## Claim theorems -/

/-- C1: the claim says merge-point detection is exact graph-structural
reachability and invariant under permutation of the node list.  The code's
`find_common_descendent` is an authoring-order heuristic: on two
permutations of the same well-formed graph it returns two different merge
points (`e1` versus `e2`), and `pre_process_nodes` produces two different
linearized statement sequences. -/
theorem c1_merge_point_is_order_dependent :
    List.Perm graphOrder2.nodes graphOrder1.nodes
    ∧ find_common_descendent (graphOrder1.nodes.drop 2)
        ≠ find_common_descendent (graphOrder2.nodes.drop 2)
    ∧ pre_process_nodes graphOrder1 ≠ pre_process_nodes graphOrder2 := by
  decide

/-- C2: the claim says a `TypeDefinition` is declared at most once per
compiled unit because the seen-set is threaded through the whole recursive
link call.  In the code each recursion level builds a fresh
`new_object_types` set (the `object_type_ids` parameter is dead), so a
type referenced from the argument descriptors of two different fragments
is declared once per fragment: the compiled route carries two identical,
non-empty declarations of `T`. -/
theorem c2_shared_type_declared_twice :
    sharedTypeModels.length = 2
    ∧ sharedTypeModels.getD 0 [] = sharedTypeModels.getD 1 []
    ∧ sharedTypeModels.getD 0 [] ≠ [] := by
  decide

/-- C3: the claim says linearization recursively re-enters branch handling
for an inner branch, emitting its statements one level deeper and keeping
its merge inside the enclosing arm.  The code does not recurse:
`pre_process_nodes` on the nested graph emits the inner branch `B` as a
bare `if` header at depth 2 with no arm statements, emits the inner arm
nodes `T`, `U`, `Mi` at depth 1 after the outer `else` arm (outside both
arms), and swallows the post-merge nodes `M`, `e` into the `else` arm; no
statement ever reaches depth 3. -/
theorem c3_inner_branch_not_recursed :
    pre_process_nodes nestedGraph =
      [{ indent_level := 0, node_type := .START, node := some ndStartS },
       { indent_level := 1, node_type := .IF, node := some ndOuterA },
       { indent_level := 2, node_type := .IF, node := some ndInnerB },
       { indent_level := 1, node_type := .ELSE, node := some ndOuterA },
       { indent_level := 2, node_type := .ACTION, node := some ndOutF },
       { indent_level := 2, node_type := .ACTION, node := some ndOutM },
       { indent_level := 2, node_type := .END, node := some ndEndE },
       { indent_level := 1, node_type := .ACTION, node := some ndInT },
       { indent_level := 1, node_type := .ACTION, node := some ndInU },
       { indent_level := 1, node_type := .ACTION, node := some ndInMi }]
    ∧ ∀ c ∈ pre_process_nodes nestedGraph, c.indent_level ≤ 2 := by
  decide

/-- C4: the claim says linearization fails with `GraphStructureError` on a
graph with no start node, multiple start nodes, or a cyclic successor
chain.  `pre_process_nodes` has no failure path at all: on a start-less
cyclic graph and on a two-start graph it silently returns a statement
sequence. -/
theorem c4_malformed_graphs_accepted :
    pre_process_nodes cyclicGraph
      = [{ indent_level := 0, node_type := .ACTION, node := some ndLoopA }]
    ∧ pre_process_nodes twoStartGraph
      = [{ indent_level := 0, node_type := .START, node := some ndS1 },
         { indent_level := 1, node_type := .START, node := some ndS2 },
         { indent_level := 2, node_type := .END, node := some ndSE }] := by
  decide

/-- C7: the claim says bundle packaging is bit-identical across runs on the
same inputs.  `create_fastapi_server` serializes `requirements.txt` by
joining a Python `set`, whose iteration order is not a function of the
inputs: two enumeration orders of the same requirement set (both
permutations of the same elements) produce different file bytes. -/
theorem c7_requirements_bytes_depend_on_set_order :
    List.Perm (combined_requirements c7data).reverse (combined_requirements c7data)
    ∧ requirements_file_bytes (combined_requirements c7data).reverse
        ≠ requirements_file_bytes (combined_requirements c7data) :=
  ⟨List.reverse_perm _, by decide⟩

/-- C6 counterexample: a leaf whose body text is the empty string does not
raise `MissingImplementationError` — it links successfully with empty
code, refuting "fails exactly when the body text is empty or absent". -/
theorem c6_counterexample_empty_body_accepted :
    recursive_compile_route 20 acceptAll emptyLeaf
      = .ok ⟨[], ["import os".data], [], []⟩ := by
  decide

/-- C6 (amended): for every leaf fragment, link fails with
`MissingImplementationError` exactly when the body text is absent
(`None`); an empty-string body is linked as empty code. -/
theorem c6_missing_implementation_iff_none (n : Nat) (parses : Str → Bool)
    (id : Str) (fc : Option Str) (imports pkgs : List Str) :
    recursive_compile_route (n+1) parses (.mk id fc imports none none pkgs none)
      = .error (.missingCode id) ↔ fc = none := by
  constructor
  · intro h
    cases fc with
    | none => rfl
    | some c =>
      exfalso
      simp only [recursive_compile_route, route_models] at h
      split at h <;> simp_all
  · intro h
    subst h
    rfl

/-- C5 (amended): when the composed text fails the syntax checker, link
raises carrying text and produces no compiled unit; for a leaf the carried
text is exactly the checked text (imports + body), but for a composite
the carried text is the concatenated child and own bodies without the
merged import lines that were part of the checked text. -/
theorem c5_error_carries_code_without_imports :
    (∀ (n : Nat) (parses : Str → Bool) (id body : Str) (imports pkgs : List Str),
      parses (List.intercalate "\n".data imports ++ "\n\n".data ++ body) = false →
      recursive_compile_route (n+1) parses (.mk id (some body) imports none none pkgs none)
        = .error (.parseFailure
            (List.intercalate "\n".data imports ++ "\n\n".data ++ body)))
    ∧
    (∀ (n : Nat) (parses : Str → Bool) (id body : Str) (imports pkgs : List Str)
        (kids : List Func) (acc : Acc4),
      compile_children n parses kids ⟨[], [], [], []⟩ = .ok acc →
      parses (List.intercalate "\n".data (acc.imports ++ imports) ++ "\n\n".data
          ++ (acc.code ++ "\n\n".data ++ body)) = false →
      recursive_compile_route (n+1) parses
          (.mk id (some body) imports none none pkgs (some kids))
        = .error (.parseFailure (acc.code ++ "\n\n".data ++ body))) := by
  constructor
  · intro n parses id body imports pkgs h
    simp only [recursive_compile_route, route_models]
    rw [h]
    simp
  · intro n parses id body imports pkgs kids acc hc h
    simp only [recursive_compile_route, route_models]
    rw [hc]
    simp only
    rw [h]
    simp

/-- C5 witness: the leaf half of the amended claim at a concrete leaf whose
body is `@`. -/
theorem c5_witness_leaf_text :
    recursive_compile_route 1 rejectAt badLeaf
      = .error (.parseFailure (List.intercalate "\n".data ["import os".data]
          ++ "\n\n".data ++ "@".data)) :=
  c5_error_carries_code_without_imports.1 0 rejectAt "L".data "@".data
    ["import os".data] [] (by decide)

/-- C5 counterexample: for the failing composite, the carried text is the
body concatenation only; it differs from the full text that was submitted
to the syntax checker (which includes the merged import lines and is the
text that actually fails to parse). -/
theorem c5_counterexample_composite_text :
    recursive_compile_route 20 rejectAt badComposite
      = .error (.parseFailure "\n\nx = 1\n\n@@".data)
    ∧ "\n\nx = 1\n\n@@".data
        ≠ List.intercalate "\n".data ["import os".data, "import re".data]
            ++ "\n\n".data ++ "\n\nx = 1\n\n@@".data
    ∧ rejectAt (List.intercalate "\n".data ["import os".data, "import re".data]
          ++ "\n\n".data ++ "\n\nx = 1\n\n@@".data) = false := by
  decide

/-- C9: dependency-manifest resolution groups packages by name in
first-appearance order and renders, for every name, the requirement from
the first (version, specifier) pair declared for it; it has no failure
path, so conflicting pins are silently resolved to the first pin. -/
theorem c9_first_seen_pair_wins (packages : List RequiredPackage) :
    generate_requirements_txt packages
      = List.intercalate "\n".data
          ((first_seen_packages [] packages).map
            (fun p => requirementFor p.package_name (p.version, p.specifier))) := by
  unfold generate_requirements_txt resolved_packages
  congr 1
  have h := resolved_heads packages [] [] (by simp) (by simp)
  simp only [List.map_nil, List.nil_append] at h
  have h2 : ∀ (gs : List (Str × List (Option Str × Option Str))),
      gs.map (fun g => requirementFor g.1 (g.2.headD (none, none)))
        = (gs.map groupHead).map (fun q => requirementFor q.1 q.2) := by
    intro gs
    rw [List.map_map]
    rfl
  rw [h2, h, List.map_map]
  rfl

/-- C8: for every composite fragment that links successfully, the linked
code is the children's linked codes concatenated in declaration order
(each preceded by a blank-line separator) followed by the fragment's own
body, appended last; each child's code comes from its own successful
link. -/
theorem c8_children_in_declaration_order (n : Nat) (parses : Str → Bool)
    (id body : Str) (imports pkgs : List Str) (kids : List Func)
    (cf : CompiledFunction)
    (hr : recursive_compile_route (n+1) parses
      (.mk id (some body) imports none none pkgs (some kids)) = .ok cf) :
    ∃ codes : List Str,
      List.Forall₂ (fun k c => ∃ m cfk,
        recursive_compile_route m parses k = .ok cfk ∧ cfk.code = c) kids codes
      ∧ cf.code = codes.foldl (fun a c => a ++ "\n\n".data ++ c) []
          ++ "\n\n".data ++ body := by
  simp only [recursive_compile_route, route_models] at hr
  cases hc : compile_children n parses kids ⟨[], [], [], []⟩ with
  | error e => rw [hc] at hr; simp at hr
  | ok acc =>
    rw [hc] at hr
    simp only at hr
    obtain ⟨codes, hf, hcode⟩ := compile_children_codes parses kids n ⟨[], [], [], []⟩ acc hc
    refine ⟨codes, hf, ?_⟩
    split at hr
    · injection hr with h2
      rw [← h2]
      show acc.code ++ "\n\n".data ++ body = _
      rw [hcode]
    · exact absurd hr (by simp)

/-- C8 witness: the two-child example — `fetch`'s code precedes `parse`'s
code, which precedes the root's own call-site. -/
theorem c8_witness_fetch_parse_order :
    ∃ codes : List Str,
      List.Forall₂ (fun k c => ∃ m cfk,
        recursive_compile_route m acceptAll k = .ok cfk ∧ cfk.code = c)
        [leafFetch, leafParse] codes
      ∧ ("\n\ndef fetch(url):\n    return url\n\ndef parse(b):\n    return b\n\nparse(fetch(u))".data : Str)
          = codes.foldl (fun a c => a ++ "\n\n".data ++ c) []
            ++ "\n\n".data ++ "parse(fetch(u))".data :=
  c8_children_in_declaration_order 19 acceptAll "root".data "parse(fetch(u))".data
    [] [] [leafFetch, leafParse]
    ⟨["p-requests".data, "p-bs4".data], ["import requests".data],
     "\n\ndef fetch(url):\n    return url\n\ndef parse(b):\n    return b\n\nparse(fetch(u))".data, []⟩
    (by decide)

theorem replaceAll_of_not_mem (a : Char) (w' f : Str) (xs : Str) (h : a ∉ xs) :
    replaceAll (a :: w') f xs = xs := by
  have h1 := replaceAll_skip a w' f xs [] h
  rw [List.append_nil] at h1
  rw [h1, show replaceAll (a :: w') f [] = [] from rfl, List.append_nil]

/-- C10: emitting a start statement under an exported name textually
replaces every occurrence of the start node's declared name in the
rendered definition line: when the name occurs inside a declared parameter
name (here `u ++ name ++ t`), the emitted header rewrites the parameter
name as well, not only the function name.  The freshness hypotheses say
the name's first character occurs nowhere else in the rendered line. -/
theorem c10_replacement_rewrites_param_names (a : Char) (w' u t pt fn : Str)
    (h1 : a ∉ "def ".data) (h2 : a ≠ '(') (h3 : a ∉ u) (h4 : a ∉ t)
    (h5 : a ∉ ": ".data) (h6 : a ∉ pt) (h7 : a ∉ "):".data) :
    graph_to_code
      [{ indent_level := 0, node_type := .START,
         node := some { name := a :: w', node_type := .start,
                        output_params := [{ param_type := pt,
                                            name := u ++ (a :: w') ++ t }] } }] fn
    = "def ".data ++ fn ++ "(".data ++ u ++ fn ++ t ++ ": ".data ++ pt
        ++ "):".data ++ ['\n'] := by
  have h2' : a ∉ "(".data := by
    rw [show ("(".data : Str) = ['('] from rfl]
    simp [h2]
  have hrest : a ∉ t ++ (": ".data ++ (pt ++ "):".data)) := by
    intro hmem
    rcases List.mem_append.mp hmem with hm | hm
    · exact h4 hm
    rcases List.mem_append.mp hm with hm2 | hm2
    · exact h5 hm2
    rcases List.mem_append.mp hm2 with hm3 | hm3
    · exact h6 hm3
    · exact h7 hm3
  have h0 : graph_to_code
      [{ indent_level := 0, node_type := .START,
         node := some { name := a :: w', node_type := .start,
                        output_params := [{ param_type := pt,
                                            name := u ++ (a :: w') ++ t }] } }] fn
      = replaceAll (a :: w') fn
          ((("def ".data ++ (a :: w') ++ "(".data ++ (u ++ (a :: w') ++ t)
              ++ ": ".data ++ pt) ++ ", ".data).take
            ((("def ".data ++ (a :: w') ++ "(".data ++ (u ++ (a :: w') ++ t)
              ++ ": ".data ++ pt) ++ ", ".data).length - 2) ++ "):".data)
        ++ ['\n'] := rfl
  rw [h0, take_sub_two]
  have e2 : ("def ".data ++ (a :: w') ++ "(".data ++ (u ++ (a :: w') ++ t)
        ++ ": ".data ++ pt) ++ "):".data
      = "def ".data ++ ((a :: w') ++ ("(".data ++ (u ++ ((a :: w')
          ++ (t ++ (": ".data ++ (pt ++ "):".data))))))) := by
    simp [List.append_assoc]
  rw [e2, replaceAll_skip a w' fn "def ".data _ h1, replaceAll_match,
    replaceAll_skip a w' fn "(".data _ h2', replaceAll_skip a w' fn u _ h3,
    replaceAll_match, replaceAll_of_not_mem a w' fn _ hrest]
  simp [List.append_assoc]

/-- C10 witness: start node `qz` with parameter `n_qz_cnt`; the emitted
header under exported name `fn` is `def fn(n_fn_cnt: int):` — the
parameter name is rewritten too. -/
theorem c10_witness_concrete_header :
    graph_to_code
      [{ indent_level := 0, node_type := .START,
         node := some { name := 'q' :: "z".data, node_type := .start,
                        output_params := [{ param_type := "int".data,
                                            name := "n_".data ++ ('q' :: "z".data)
                                              ++ "_cnt".data }] } }] "fn".data
    = "def ".data ++ "fn".data ++ "(".data ++ "n_".data ++ "fn".data
        ++ "_cnt".data ++ ": ".data ++ "int".data ++ "):".data ++ ['\n'] :=
  c10_replacement_rewrites_param_names 'q' "z".data "n_".data "_cnt".data
    "int".data "fn".data (by decide) (by decide) (by decide) (by decide)
    (by decide) (by decide) (by decide)

/-- C6 witness: a leaf with absent body fails with the missing-code error. -/
theorem c6_witness_absent_body :
    recursive_compile_route 1 acceptAll (.mk "x".data none [] none none [] none)
      = .error (.missingCode "x".data) :=
  (c6_missing_implementation_iff_none 0 acceptAll "x".data none [] []).mpr rfl

/-- C9 witness: two conflicting pins for `numpy` — the first-seen pair is
rendered, and the manifest equals the first-seen rendering. -/
theorem c9_witness_conflicting_pins :
    generate_requirements_txt
      [{ package_name := "numpy".data, version := some "1.0".data,
         specifier := some ">=".data },
       { package_name := "numpy".data, version := some "2.0".data,
         specifier := some "==".data },
       { package_name := "flask".data }]
      = List.intercalate "\n".data
          ((first_seen_packages []
            [{ package_name := "numpy".data, version := some "1.0".data,
               specifier := some ">=".data },
             { package_name := "numpy".data, version := some "2.0".data,
               specifier := some "==".data },
             { package_name := "flask".data }]).map
            (fun p => requirementFor p.package_name (p.version, p.specifier))) :=
  c9_first_seen_pair_wins _
